import Mathlib

/-!
Shallow embedding of the hierarchical state machine in `machine.h`
(`Machine<S, T>` and its nested `MachineState`).  States and triggers are
coded as `Nat`; payload type signatures (the `Args...` template packs) are
coded as `List Nat` of type tags; guard predicates (`std::function<bool()>`)
are modelled by the boolean value they return during the scan in which they
are evaluated.  Entry/exit hook invocations are modelled as event traces:
the trace lists the states whose `fOnExit` / `fOnEntry` (or parameterized
variant) would be invoked, in invocation order; a state without a registered
hook simply produces no observable side effect at its trace position.
Recursive walks over the parent relation take an explicit fuel argument;
claims about them are stated for sufficient fuel.
-/

namespace StateMachineCpp

/-- The kind of a `TriggerAction`: `ignore`/`permit*` build a `TriggerAction`
with an empty or filled `fDestination`, `internalTransition` builds an
`InternalTriggerAction` (no destination, a callback), `permitDynamic` builds
a `DynamicTriggerAction` whose destination is computed by a selector from
the payload (payload values coded as `List Nat`). -/
inductive ActKind where
  | ignore : ActKind
  | internal : ActKind
  | toState (d : Nat) : ActKind
  | dynamic (f : List Nat → Nat) : ActKind

/-- One entry of `MachineState::fTriggers`.  `guard = none` models an
unconditional action (`Action::isValid` returns true); `guard = some b`
models a `Conditional<...>` decorator whose predicate returns `b` when
evaluated.  `sig` is the `Args...` payload-type signature the entry was
registered with (`[]` for a parameterless registration). -/
structure Action where
  guard : Option Bool
  sig : List Nat
  kind : ActKind

/-- The per-state configuration data of `MachineState`: `fParentState`,
`fInitialState`, and the trigger table `fTriggers`.  The table is a
`std::multimap`, which preserves insertion order among entries with equal
keys; it is modelled as the insertion-ordered association list of all
entries, filtered by trigger at lookup time. -/
structure StateCfg where
  parent : Option Nat
  initialChild : Option Nat
  triggers : List (Nat × Action)

/-- The `Machine`: current state `fState`, the state map `fStates`, and
whether the two optional observers `fOnUnhandledTrigger` /
`fOnTransitioned` are registered. -/
structure Machine where
  current : Nat
  states : List (Nat × StateCfg)
  hasUnhandledObserver : Bool
  hasTransitionedObserver : Bool

/-- `Machine::Machine(S initialState)`: stores the initial state and
nothing else; no node is created, no hook is invoked. -/
def mkMachine (s : Nat) : Machine :=
  { current := s, states := [], hasUnhandledObserver := false
    hasTransitionedObserver := false }

/-- `Machine::onUnhandledTrigger`: registers the unhandled-trigger
observer. -/
def onUnhandledTriggerM (m : Machine) : Machine :=
  { m with hasUnhandledObserver := true }

/-- Node lookup.  A state that was never configured behaves as a default
(empty) node: `getCachedMachineState` auto-creates default nodes on
reference, which is the spec's stated semantics for forward references
(destination/parent states "may be auto-created with default (empty)
nodes"). -/
def getCfg (m : Machine) (s : Nat) : StateCfg :=
  match m.states.lookup s with
  | some c => c
  | none => { parent := none, initialChild := none, triggers := [] }

/-- `fParentState` of a state's node. -/
def parentOf (m : Machine) (s : Nat) : Option Nat :=
  (getCfg m s).parent

/-- `fInitialState` of a state's node. -/
def initialChildOf (m : Machine) (s : Nat) : Option Nat :=
  (getCfg m s).initialChild

/-- Replace (or insert) the node of state `s`. -/
def updateAssoc : List (Nat × StateCfg) → Nat → StateCfg → List (Nat × StateCfg)
  | [], s, c => [(s, c)]
  | (k, v) :: rest, s, c =>
      if k == s then (k, c) :: rest else (k, v) :: updateAssoc rest s c

/-- Write back the node of state `s` into the machine's state map. -/
def setCfg (m : Machine) (s : Nat) (c : StateCfg) : Machine :=
  { m with states := updateAssoc m.states s c }

/-- `MachineState::isDescendantOf`:
`fState == state || (fParentState && parent->isDescendantOf(state))`,
with explicit fuel for the walk up the parent chain (the C++ recursion
terminates only when the parent relation is a forest). -/
def isDescendantOf (m : Machine) : Nat → Nat → Nat → Bool
  | 0, _, _ => false
  | fuel + 1, a, b =>
      a == b ||
        (match parentOf m a with
         | some p => isDescendantOf m fuel p b
         | none => false)

/-- The `equal_range(trigger)` slice of a state's trigger table, in
insertion order. -/
def entriesFor (m : Machine) (s t : Nat) : List Action :=
  ((getCfg m s).triggers.filter (fun e => e.1 == t)).map (fun e => e.2)

/-- The first entry of the `equal_range` slice whose `isValid()` returns
true (guard absent, or guard evaluating true). -/
def firstValidEntry (m : Machine) (s t : Nat) : Option Action :=
  (entriesFor m s t).find? (fun a => a.guard.getD true)

/-- `MachineState::getActionFor<Args...>`: scan the `equal_range` of the
trigger in insertion order, skip entries whose guard fails, and return
`dynamic_cast<TriggerAction<Args...>*>` of the first valid entry — the cast
yields null (modelled as `none`) when that entry's registered signature
differs from `Args...`.  If no entry is valid, fall back to the parent
state; at the root, return null. -/
def getActionFor (m : Machine) : Nat → Nat → Nat → List Nat → Option Action
  | 0, _, _, _ => none
  | fuel + 1, s, t, sig =>
      match firstValidEntry m s t with
      | some a => if a.sig == sig then some a else none
      | none =>
          match parentOf m s with
          | some p => getActionFor m fuel p t sig
          | none => none

/-- The ancestor chain of a state, innermost first: the state itself, then
its parent, and so on up to the root (or until fuel runs out). -/
def ancestorChain (m : Machine) : Nat → Nat → List Nat
  | 0, _ => []
  | fuel + 1, s =>
      s ::
        (match parentOf m s with
         | some p => ancestorChain m fuel p
         | none => [])

/-- Spec-side restatement of trigger resolution (spec section 4.2), for
comparison with `getActionFor`: walk the ancestor chain innermost first,
stop at the first state holding a guard-satisfied entry for the trigger,
and deliver that entry through the signature cast. -/
def resolveSpec (m : Machine) (fuel s t : Nat) (sig : List Nat) : Option Action :=
  match (ancestorChain m fuel s).find? (fun u => (firstValidEntry m u t).isSome) with
  | some u =>
      (firstValidEntry m u t).bind (fun a => if a.sig == sig then some a else none)
  | none => none

/-- `k`-fold iteration of the parent relation: `iterParent m k s` is the
`k`-th strict ancestor of `s` (with `iterParent m 0 s = some s`), or `none`
if the chain ends before `k` steps. -/
def iterParent (m : Machine) : Nat → Nat → Option Nat
  | 0, s => some s
  | k + 1, s =>
      match parentOf m s with
      | some p => iterParent m k p
      | none => none

/-- Spec-side descendant relation: `a` equals `b` or `a`'s parent chain
reaches `b` within `n` steps. -/
def reachesB (m : Machine) (n a b : Nat) : Bool :=
  (List.range (n + 1)).any (fun k => iterParent m k a == some b)

/-- Every configured state's parent chain dies out within `n` steps: the
forest (acyclicity plus finite depth) bound used to settle termination
claims. -/
def boundedB (m : Machine) (n : Nat) : Bool :=
  m.states.all (fun pr => iterParent m n pr.1 == none)

/-- `Machine::exit(src, dst, reentry)`.  Returns the trace of states whose
exit hooks are invoked (innermost first) and the returned `topExited`
node.  Mirrors the C++ branch structure: no-op when the destination lives
inside the source (unless reentry); otherwise exit `src`, then either stop
at the root, stop at `src`'s parent when the destination is a descendant of
it, or recurse upward with `reentry = false`. -/
def exitM (m : Machine) : Nat → Nat → Nat → Bool → List Nat × Nat
  | 0, src, _, _ => ([], src)
  | fuel + 1, src, dst, reentry =>
      if !reentry && isDescendantOf m (fuel + 1) dst src then
        ([], src)
      else
        match parentOf m src with
        | none => ([src], src)
        | some p =>
            match parentOf m dst with
            | some _ =>
                if isDescendantOf m (fuel + 1) dst p then
                  ([src], p)
                else
                  let r := exitM m fuel p dst false
                  (src :: r.1, r.2)
            | none =>
                let r := exitM m fuel p dst false
                (src :: r.1, r.2)

/-- `Machine::enter(src, dst, trigger, initialTransition)`.  Returns
`none` when the C++ `assert(currentState->fParentState == dst->fState)`
fires (the transition-time check that a state's `fInitialState` is itself
configured as a child of that state), otherwise `some (trace, lastSet)`:
the trace of states whose entry hooks are invoked, in invocation order,
and the last assignment made to `fState` during the call (`none` if the
call assigned nothing). -/
def enterM (m : Machine) : Nat → Nat → Nat → Bool → Option (List Nat × Option Nat)
  | 0, _, _, _ => none
  | fuel + 1, src, dst, initial =>
      let pre? : Option (List Nat × Option Nat) :=
        if initial then some ([], none)
        else
          match parentOf m dst with
          | some p =>
              if isDescendantOf m (fuel + 1) src p then some ([], none)
              else enterM m fuel src p false
          | none => some ([], none)
      match pre? with
      | none => none
      | some (pre, la0) =>
          match initialChildOf m dst with
          | none => some (pre ++ [dst], la0)
          | some c =>
              if parentOf m c == some dst then
                match enterM m fuel dst c true with
                | none => none
                | some (tr, la1) => some (pre ++ dst :: tr, some (la1.getD c))
              else none

/-- The tail of one `enter` step, after the optional recursive entry of the
destination's ancestors produced the prefix trace `pre` and last assignment
`la0`: invoke `dst`'s entry hook, then cascade into its `fInitialState`
(setting `fState` to the child, checking the child's parent, and recursing
with `initialTransition = true`). -/
def enterFrom (m : Machine) (fuel dst : Nat) (pre : List Nat) (la0 : Option Nat) :
    Option (List Nat × Option Nat) :=
  match initialChildOf m dst with
  | none => some (pre ++ [dst], la0)
  | some c =>
      if parentOf m c == some dst then
        match enterM m fuel dst c true with
        | none => none
        | some (tr, la1) => some (pre ++ dst :: tr, some (la1.getD c))
      else none

/-- The observable effect of one `fire` call: exit-hook trace, entry-hook
trace, the `(state, trigger)` delivered to `fOnUnhandledTrigger` (if it was
invoked), the `(source, destination, trigger)` delivered to
`fOnTransitioned` (if it was invoked), and whether an internal transition's
action callback ran. -/
structure FireTrace where
  exits : List Nat := []
  enters : List Nat := []
  unhandledCall : Option (Nat × Nat) := none
  transitionedCall : Option (Nat × Nat × Nat) := none
  internalCall : Bool := false

/-- A fatal outcome of `fire`: the `assert(false)` on an unhandled trigger
with no observer registered, or the transition-time assertion inside
`enter`. -/
inductive FireErr where
  | unhandledTrigger : FireErr
  | assertViolation : FireErr

/-- The transition branch of `Machine::fire` once a destination `d` is
known: run `exit` with `reentry = (source == destination)`, assign
`fState = d`, notify `fOnTransitioned`, then run `enter` from the returned
`topExited` node (which may reassign `fState` while cascading through
initial substates). -/
def fireGo (m : Machine) (fuel t d : Nat) : Except FireErr (Machine × FireTrace) :=
  let r := exitM m fuel m.current d (m.current == d)
  match enterM m fuel r.2 d false with
  | none => Except.error FireErr.assertViolation
  | some (tr, la) =>
      Except.ok
        ({ m with current := la.getD d },
         { exits := r.1, enters := tr
           transitionedCall :=
             if m.hasTransitionedObserver then some (m.current, d, t) else none })

/-- `Machine::fire(trigger, args...)` (the parameterless overload is the
`sig = []`, `args = []` instance): resolve the trigger from the current
state; on failure notify `fOnUnhandledTrigger` or die on `assert(false)`;
on an action without destination perform `call()` (a no-op for ignore, the
callback for an internal transition) and return; otherwise compute the
destination (evaluating a dynamic selector on the payload) and perform the
exit/enter traversal. -/
def fireM (m : Machine) (fuel t : Nat) (sig args : List Nat) :
    Except FireErr (Machine × FireTrace) :=
  match getActionFor m fuel m.current t sig with
  | none =>
      if m.hasUnhandledObserver then
        Except.ok (m, { unhandledCall := some (m.current, t) })
      else
        Except.error FireErr.unhandledTrigger
  | some a =>
      match a.kind with
      | ActKind.ignore => Except.ok (m, {})
      | ActKind.internal => Except.ok (m, { internalCall := true })
      | ActKind.toState d => fireGo m fuel t d
      | ActKind.dynamic f => fireGo m fuel t (f args)

/-- Modelled from the spec: `getDestinationFor`, which `Machine::canFire`
calls, is not defined anywhere in the repository (and `canFire` is never
instantiated by any caller); per the spec, `canFire(trigger)` is true
exactly when trigger resolution from the current state finds an applicable
action, so the missing lookup is modelled as parameterless trigger
resolution. -/
def getDestinationFor (m : Machine) (fuel s t : Nat) : Option Action :=
  getActionFor m fuel s t []

/-- `Machine::canFire(trigger)`: converts the resolved destination lookup
to `bool`. -/
def canFire (m : Machine) (fuel t : Nat) : Bool :=
  (getDestinationFor m fuel m.current t).isSome

/-- One configuration call on a `MachineState` builder.  `permit` with
`guard = some b` is `permitIf` (likewise the other `If` variants); the
entry/exit hook registrations are omitted because hook invocation is
modelled by event traces, not stored callbacks. -/
inductive ConfigOp where
  | substateOf (child parentArg : Nat) : ConfigOp
  | initialTransition (s child : Nat) : ConfigOp
  | permit (s t d : Nat) (sig : List Nat) (g : Option Bool) : ConfigOp
  | permitReentry (s t : Nat) (sig : List Nat) (g : Option Bool) : ConfigOp
  | ignoreTrig (s t : Nat) (sig : List Nat) (g : Option Bool) : ConfigOp
  | internalTransition (s t : Nat) (sig : List Nat) (g : Option Bool) : ConfigOp
  | permitDynamic (s t : Nat) (sig : List Nat) (g : Option Bool)
      (f : List Nat → Nat) : ConfigOp

/-- `fTriggers.insert({trigger, action})`: append one entry to the
multimap (insertion order is preserved within a trigger's `equal_range`). -/
def addTrigger (m : Machine) (s t : Nat) (a : Action) : Machine :=
  let c := getCfg m s
  setCfg m s { c with triggers := c.triggers ++ [(t, a)] }

/-- Apply one configuration call, `none` modelling a failed `assert`:
`substateOf` asserts the parent is not yet set and
`!this->isDescendantOf(newParent)` (the "Check for cycles" comment's
check, executed while `fParentState` is still unset); `initialTransition`
asserts the child differs from the state and `fInitialState` is not yet
set; `permit`/`permitIf` assert the destination differs from the state;
the remaining builders assert nothing. -/
def applyOp (m : Machine) : ConfigOp → Option Machine
  | ConfigOp.substateOf child p =>
      if (getCfg m child).parent.isSome then none
      else if isDescendantOf m (m.states.length + 1) child p then none
      else some (setCfg m child { getCfg m child with parent := some p })
  | ConfigOp.initialTransition s child =>
      if s == child then none
      else if (getCfg m s).initialChild.isSome then none
      else some (setCfg m s { getCfg m s with initialChild := some child })
  | ConfigOp.permit s t d sig g =>
      if d == s then none
      else some (addTrigger m s t { guard := g, sig := sig, kind := ActKind.toState d })
  | ConfigOp.permitReentry s t sig g =>
      some (addTrigger m s t { guard := g, sig := sig, kind := ActKind.toState s })
  | ConfigOp.ignoreTrig s t sig g =>
      some (addTrigger m s t { guard := g, sig := sig, kind := ActKind.ignore })
  | ConfigOp.internalTransition s t sig g =>
      some (addTrigger m s t { guard := g, sig := sig, kind := ActKind.internal })
  | ConfigOp.permitDynamic s t sig g f =>
      some (addTrigger m s t { guard := g, sig := sig, kind := ActKind.dynamic f })

/-- Apply a sequence of configuration calls, stopping at the first failed
assertion. -/
def applyOps (m : Machine) : List ConfigOp → Option Machine
  | [] => some m
  | op :: rest =>
      match applyOp m op with
      | some m2 => applyOps m2 rest
      | none => none

/-- Configuration of `testInitialSubState` in `main.cpp` (A=0, B=1, C=2,
trigger X=10): `A.permit(X, B); B.initialTransition(C); C.substateOf(B)`. -/
def scenario2Ops : List ConfigOp :=
  [ConfigOp.permit 0 10 1 [] none,
   ConfigOp.initialTransition 1 2,
   ConfigOp.substateOf 2 1]

/-- Configuration of `testExitSiblingSubState` in `main.cpp` (A=0, B=1,
C=2, trigger X=10): `B.substateOf(A); B.permit(X, C); C.substateOf(A)`. -/
def scenario3Ops : List ConfigOp :=
  [ConfigOp.substateOf 1 0,
   ConfigOp.permit 1 10 2 [] none,
   ConfigOp.substateOf 2 0]

/-- Configuration of `testExitSuperSubState` in `main.cpp` (A=0, B=1, C=2,
D=3, trigger X=10): `B.substateOf(A); C.substateOf(A); D.substateOf(C);
D.permit(X, B)`. -/
def scenario4Ops : List ConfigOp :=
  [ConfigOp.substateOf 1 0,
   ConfigOp.substateOf 2 0,
   ConfigOp.substateOf 3 2,
   ConfigOp.permit 3 10 1 [] none]

/-- Configuration of `testReentrySubState` in `main.cpp` (A=0, B=1,
trigger X=10): `A.initialTransition(B); A.permitReentry(X);
B.substateOf(A)`. -/
def scenario5Ops : List ConfigOp :=
  [ConfigOp.initialTransition 0 1,
   ConfigOp.permitReentry 0 10 [] none,
   ConfigOp.substateOf 1 0]

/-- A small concrete forest used to evaluate traversal theorems:
`1.substateOf(0)`, `2.substateOf(1)`, `3.substateOf(0)`, current state 2. -/
def mForest : Machine :=
  { current := 2
    states :=
      [(0, { parent := none, initialChild := none, triggers := [] }),
       (1, { parent := some 0, initialChild := none, triggers := [] }),
       (2, { parent := some 1, initialChild := none, triggers := [] }),
       (3, { parent := some 0, initialChild := none, triggers := [] })]
    hasUnhandledObserver := false, hasTransitionedObserver := false }

/-- A concrete configuration exercising the entry traversal: state 0 has
initial child 1 (correctly parented), state 3 has initial child 4 whose
parent is not 3 (the transition-time check must fail there), and state 7
is a child of 3. -/
def mEnter : Machine :=
  { current := 0
    states :=
      [(0, { parent := none, initialChild := some 1, triggers := [] }),
       (1, { parent := some 0, initialChild := none, triggers := [] }),
       (2, { parent := some 1, initialChild := none, triggers := [] }),
       (3, { parent := none, initialChild := some 4, triggers := [] }),
       (4, { parent := none, initialChild := none, triggers := [] }),
       (7, { parent := some 3, initialChild := none, triggers := [] })]
    hasUnhandledObserver := false, hasTransitionedObserver := false }

/-- Mixed payload-type registrations for one trigger: state 0 (child of 1)
registers trigger 5 first with signature `[1]`, then with signature `[2]`;
its parent 1 registers trigger 5 with signature `[2]`.  All entries are
unconditional. -/
def mSig : Machine :=
  { current := 0
    states :=
      [(0, { parent := some 1, initialChild := none
             triggers :=
               [(5, { guard := none, sig := [1], kind := ActKind.toState 7 }),
                (5, { guard := none, sig := [2], kind := ActKind.toState 9 })] }),
       (1, { parent := none, initialChild := none
             triggers :=
               [(5, { guard := none, sig := [2], kind := ActKind.toState 8 })] })]
    hasUnhandledObserver := false, hasTransitionedObserver := false }

/-- The `testIgnoreIfTrueSubState` shape: the substate 1 ignores trigger 5
under a true guard while its parent 0 permits 5 to state 2. -/
def mIgnore : Machine :=
  { current := 1
    states :=
      [(0, { parent := none, initialChild := none
             triggers := [(5, { guard := none, sig := [], kind := ActKind.toState 2 })] }),
       (1, { parent := some 0, initialChild := none
             triggers := [(5, { guard := some true, sig := [], kind := ActKind.ignore })] }),
       (2, { parent := some 0, initialChild := none, triggers := [] })]
    hasUnhandledObserver := false, hasTransitionedObserver := false }

/-- A machine whose only entry is for trigger 7, so trigger 3 is unhandled
at every level. -/
def mUnh : Machine :=
  { current := 0
    states :=
      [(0, { parent := none, initialChild := none
             triggers := [(7, { guard := none, sig := [], kind := ActKind.toState 1 })] })]
    hasUnhandledObserver := false, hasTransitionedObserver := false }

/-- The configuration sequence `configure(1).substateOf(2);
configure(2).substateOf(1)`. -/
def cycleOps : List ConfigOp :=
  [ConfigOp.substateOf 1 2, ConfigOp.substateOf 2 1]

/-- The machine produced by `cycleOps` (both calls pass their asserts). -/
def mCycle : Machine := (applyOps (mkMachine 0) cycleOps).getD (mkMachine 0)

/- Theorems.  First: general helper lemmas, then validation of the
embedding against the hook-sequence assertions of the test suite in
`main.cpp`, then one theorem (plus witness or counterexample) per claim. -/

theorem beq_some_some (x y : Nat) : (some x == some y) = (x == y) := rfl

theorem beq_none_some (y : Nat) : ((none : Option Nat) == some y) = false := rfl

/-- Trigger resolution, characterized over the ancestor chain: the code's
inner-loop-plus-parent-fallback recursion equals the spec's walk up the
chain to the first state holding a guard-satisfied entry. -/
theorem getActionFor_eq_resolveSpec (m : Machine) :
    ∀ fuel s t sig, getActionFor m fuel s t sig = resolveSpec m fuel s t sig := by
  intro fuel
  induction fuel with
  | zero => intro s t sig; rfl
  | succ n ih =>
    intro s t sig
    rw [getActionFor]
    unfold resolveSpec
    rw [ancestorChain]
    cases hfv : firstValidEntry m s t with
    | some a =>
      rw [List.find?_cons_of_pos _ (by simp [hfv])]
      show (if (a.sig == sig) = true then some a else none) =
        (firstValidEntry m s t).bind
          (fun a => if (a.sig == sig) = true then some a else none)
      rw [hfv]
      rfl
    | none =>
      rw [List.find?_cons_of_neg _ (by simp [hfv])]
      cases hp : parentOf m s with
      | some p =>
        show getActionFor m n p t sig = resolveSpec m n p t sig
        exact ih p t sig
      | none => rfl

/-- A resolved action always carries exactly the fire's payload-type
signature: the `dynamic_cast` at the end of `getActionFor` lets no other
signature through. -/
theorem getActionFor_sig (m : Machine) :
    ∀ fuel s t sig a, getActionFor m fuel s t sig = some a → a.sig = sig := by
  intro fuel
  induction fuel with
  | zero => intro s t sig a h; simp [getActionFor] at h
  | succ n ih =>
    intro s t sig a h
    rw [getActionFor] at h
    cases hfv : firstValidEntry m s t with
    | some b =>
      rw [hfv] at h
      change (if (b.sig == sig) = true then some b else none) = some a at h
      by_cases hs : (b.sig == sig) = true
      · rw [if_pos hs] at h
        cases h
        exact eq_of_beq hs
      · rw [if_neg hs] at h
        cases h
    | none =>
      rw [hfv] at h
      cases hp : parentOf m s with
      | some p =>
        rw [hp] at h
        change getActionFor m n p t sig = some a at h
        exact ih p t sig a h
      | none =>
        rw [hp] at h
        change (none : Option Action) = some a at h
        exact Option.noConfusion h

/-- `exit`, no-exit case: the destination is a descendant of (or equal to)
the source and the transition is not a reentry — no hook runs, the source
is returned. -/
theorem exitM_noexit (m : Machine) (fuel src dst : Nat) (reentry : Bool)
    (h : (!reentry && isDescendantOf m (fuel + 1) dst src) = true) :
    exitM m (fuel + 1) src dst reentry = ([], src) := by
  rw [exitM, h]
  rfl

/-- `exit`, root case: the source is exited, and having no parent it is
itself returned. -/
theorem exitM_root (m : Machine) (fuel src dst : Nat) (reentry : Bool)
    (h : (!reentry && isDescendantOf m (fuel + 1) dst src) = false)
    (hp : parentOf m src = none) :
    exitM m (fuel + 1) src dst reentry = ([src], src) := by
  rw [exitM, h, hp]
  rfl

/-- `exit`, common-ancestor case (destination with a parent): the source
is exited and its parent, being an ancestor of the destination, is
returned unexited. -/
theorem exitM_stop (m : Machine) (fuel src dst : Nat) (reentry : Bool) (p q : Nat)
    (h : (!reentry && isDescendantOf m (fuel + 1) dst src) = false)
    (hp : parentOf m src = some p)
    (hdp : parentOf m dst = some q)
    (hd : isDescendantOf m (fuel + 1) dst p = true) :
    exitM m (fuel + 1) src dst reentry = ([src], p) := by
  rw [exitM, h, hp, hdp]
  change (if isDescendantOf m (fuel + 1) dst p = true then ([src], p)
      else (src :: (exitM m fuel p dst false).1, (exitM m fuel p dst false).2)) = ([src], p)
  rw [hd]
  rfl

/-- `exit`, climb case (destination with a parent): the source is exited
and the traversal recurses to the source's parent with `reentry = false`. -/
theorem exitM_climb (m : Machine) (fuel src dst : Nat) (reentry : Bool) (p q : Nat)
    (h : (!reentry && isDescendantOf m (fuel + 1) dst src) = false)
    (hp : parentOf m src = some p)
    (hdp : parentOf m dst = some q)
    (hd : isDescendantOf m (fuel + 1) dst p = false) :
    exitM m (fuel + 1) src dst reentry =
      (src :: (exitM m fuel p dst false).1, (exitM m fuel p dst false).2) := by
  rw [exitM, h, hp, hdp]
  change (if isDescendantOf m (fuel + 1) dst p = true then ([src], p)
      else (src :: (exitM m fuel p dst false).1, (exitM m fuel p dst false).2)) =
    (src :: (exitM m fuel p dst false).1, (exitM m fuel p dst false).2)
  rw [hd]
  rfl

/-- `exit`, climb case (parentless destination): the source is exited and
the traversal recurses to the source's parent with `reentry = false`. -/
theorem exitM_climb_top (m : Machine) (fuel src dst : Nat) (reentry : Bool) (p : Nat)
    (h : (!reentry && isDescendantOf m (fuel + 1) dst src) = false)
    (hp : parentOf m src = some p)
    (hdp : parentOf m dst = none) :
    exitM m (fuel + 1) src dst reentry =
      (src :: (exitM m fuel p dst false).1, (exitM m fuel p dst false).2) := by
  rw [exitM, h, hp, hdp]
  rfl

/-- `enter`, initial-transition case: `initialTransition = true` skips the
ancestor-entry phase entirely and goes straight to the destination's entry
hook and cascade. -/
theorem enterM_initial (m : Machine) (fuel src dst : Nat) :
    enterM m (fuel + 1) src dst true = enterFrom m fuel dst [] none := by
  rw [enterM]
  rfl

/-- `enter`, parentless-destination case: nothing above the destination to
enter. -/
theorem enterM_top (m : Machine) (fuel src dst : Nat)
    (hdp : parentOf m dst = none) :
    enterM m (fuel + 1) src dst false = enterFrom m fuel dst [] none := by
  rw [enterM, hdp]
  rfl

/-- `enter`, already-inside case: the source is a descendant of the
destination's parent, so the ancestor chain is not re-entered. -/
theorem enterM_inside (m : Machine) (fuel src dst p : Nat)
    (hdp : parentOf m dst = some p)
    (hd : isDescendantOf m (fuel + 1) src p = true) :
    enterM m (fuel + 1) src dst false = enterFrom m fuel dst [] none := by
  rw [enterM, hdp]
  change (match (if isDescendantOf m (fuel + 1) src p = true then some ([], none)
        else enterM m fuel src p false : Option (List Nat × Option Nat)) with
    | none => none
    | some (pre, la0) =>
        match initialChildOf m dst with
        | none => some (pre ++ [dst], la0)
        | some c =>
            if parentOf m c == some dst then
              match enterM m fuel dst c true with
              | none => none
              | some (tr, la1) => some (pre ++ dst :: tr, some (la1.getD c))
            else none) = enterFrom m fuel dst [] none
  rw [hd]
  rfl

/-- `enter`, ancestor-entry case, failing: the recursive entry of the
destination's parent chain dies on an assertion, so the whole call dies. -/
theorem enterM_pre_fail (m : Machine) (fuel src dst p : Nat)
    (hdp : parentOf m dst = some p)
    (hd : isDescendantOf m (fuel + 1) src p = false)
    (hpre : enterM m fuel src p false = none) :
    enterM m (fuel + 1) src dst false = none := by
  rw [enterM, hdp]
  change (match (if isDescendantOf m (fuel + 1) src p = true then some ([], none)
        else enterM m fuel src p false : Option (List Nat × Option Nat)) with
    | none => none
    | some (pre, la0) =>
        match initialChildOf m dst with
        | none => some (pre ++ [dst], la0)
        | some c =>
            if parentOf m c == some dst then
              match enterM m fuel dst c true with
              | none => none
              | some (tr, la1) => some (pre ++ dst :: tr, some (la1.getD c))
            else none) = none
  rw [hd, hpre]
  rfl

/-- `enter`, ancestor-entry case: the destination's parent is entered
recursively first, and its trace prefixes the destination's own entry. -/
theorem enterM_pre (m : Machine) (fuel src dst p : Nat) (pre : List Nat)
    (la0 : Option Nat)
    (hdp : parentOf m dst = some p)
    (hd : isDescendantOf m (fuel + 1) src p = false)
    (hpre : enterM m fuel src p false = some (pre, la0)) :
    enterM m (fuel + 1) src dst false = enterFrom m fuel dst pre la0 := by
  rw [enterM, hdp]
  change (match (if isDescendantOf m (fuel + 1) src p = true then some ([], none)
        else enterM m fuel src p false : Option (List Nat × Option Nat)) with
    | none => none
    | some (pre, la0) =>
        match initialChildOf m dst with
        | none => some (pre ++ [dst], la0)
        | some c =>
            if parentOf m c == some dst then
              match enterM m fuel dst c true with
              | none => none
              | some (tr, la1) => some (pre ++ dst :: tr, some (la1.getD c))
            else none) = enterFrom m fuel dst pre la0
  rw [hd, hpre]
  rfl

/-- `enterFrom`, no-cascade case: the destination has no `fInitialState`;
its entry hook ends the trace and `fState` is not reassigned. -/
theorem enterFrom_leaf (m : Machine) (fuel dst : Nat) (pre : List Nat)
    (la0 : Option Nat) (hc : initialChildOf m dst = none) :
    enterFrom m fuel dst pre la0 = some (pre ++ [dst], la0) := by
  unfold enterFrom
  rw [hc]

/-- `enterFrom`, cascade case: `fState` is set to the initial child, the
transition-time parent check passes, and the child is entered recursively
with `initialTransition = true`. -/
theorem enterFrom_cascade (m : Machine) (fuel dst c : Nat) (pre tr : List Nat)
    (la0 la1 : Option Nat)
    (hc : initialChildOf m dst = some c)
    (hpc : (parentOf m c == some dst) = true)
    (hrec : enterM m fuel dst c true = some (tr, la1)) :
    enterFrom m fuel dst pre la0 = some (pre ++ dst :: tr, some (la1.getD c)) := by
  unfold enterFrom
  rw [hc]
  change (if (parentOf m c == some dst) = true then
      match enterM m fuel dst c true with
      | none => none
      | some (tr, la1) => some (pre ++ dst :: tr, some (la1.getD c))
    else none) = some (pre ++ dst :: tr, some (la1.getD c))
  rw [hpc, hrec]
  rfl

/-- `enterFrom`, cascade case, failing recursion. -/
theorem enterFrom_cascade_fail (m : Machine) (fuel dst c : Nat) (pre : List Nat)
    (la0 : Option Nat)
    (hc : initialChildOf m dst = some c)
    (hpc : (parentOf m c == some dst) = true)
    (hrec : enterM m fuel dst c true = none) :
    enterFrom m fuel dst pre la0 = none := by
  unfold enterFrom
  rw [hc]
  change (if (parentOf m c == some dst) = true then
      match enterM m fuel dst c true with
      | none => none
      | some (tr, la1) => some (pre ++ dst :: tr, some (la1.getD c))
    else none) = none
  rw [hpc, hrec]
  rfl

/-- `enterFrom`, transition-time parent check failing: the initial child is
not configured as a child of the entered state, and the
`assert(currentState->fParentState == dst->fState)` aborts the
transition. -/
theorem enterFrom_badChild (m : Machine) (fuel dst c : Nat) (pre : List Nat)
    (la0 : Option Nat)
    (hc : initialChildOf m dst = some c)
    (hpc : (parentOf m c == some dst) = false) :
    enterFrom m fuel dst pre la0 = none := by
  unfold enterFrom
  rw [hc]
  change (if (parentOf m c == some dst) = true then
      match enterM m fuel dst c true with
      | none => none
      | some (tr, la1) => some (pre ++ dst :: tr, some (la1.getD c))
    else none) = none
  rw [hpc]
  rfl

/-- One parent step commutes with `iterParent`. -/
theorem iterParent_one_shift (m : Machine) (k a p : Nat)
    (hp : parentOf m a = some p) :
    iterParent m (k + 1) a = iterParent m k p := by
  rw [iterParent, hp]

/-- `iterParent` dies immediately on a parentless state. -/
theorem iterParent_none_shift (m : Machine) (k a : Nat)
    (hp : parentOf m a = none) :
    iterParent m (k + 1) a = none := by
  rw [iterParent, hp]

theorem any_congr (l : List Nat) (f g : Nat → Bool) (h : ∀ x, f x = g x) :
    l.any f = l.any g := by
  induction l with
  | nil => rfl
  | cons x xs ih => rw [List.any_cons, List.any_cons, h x, ih]

theorem any_false (l : List Nat) : (l.any fun _ => false) = false := by
  induction l with
  | nil => rfl
  | cons x xs ih => rw [List.any_cons, ih]; rfl

/-- Shift the quantified-over-ancestors search one parent step down. -/
theorem any_range_shift (m : Machine) (a p b k : Nat)
    (hp : parentOf m a = some p) :
    ((List.range (k + 1)).any fun j => iterParent m j a == some b) =
      ((a == b) || (List.range k).any fun j => iterParent m j p == some b) := by
  rw [List.range_succ_eq_map, List.any_cons, List.any_map]
  congr 1
  exact any_congr _ _ _ fun j => by
    show (iterParent m (j + 1) a == some b) = (iterParent m j p == some b)
    rw [iterParent_one_shift m j a p hp]

/-- On a parentless state, the ancestor search degenerates to equality. -/
theorem any_range_none (m : Machine) (a b k : Nat)
    (hp : parentOf m a = none) :
    ((List.range (k + 1)).any fun j => iterParent m j a == some b) = (a == b) := by
  rw [List.range_succ_eq_map, List.any_cons, List.any_map]
  have h2 : ((List.range k).any ((fun j => iterParent m j a == some b) ∘ Nat.succ)) = false := by
    rw [any_congr _ _ (fun _ => false) fun j => by
      show (iterParent m (j + 1) a == some b) = false
      rw [iterParent_none_shift m j a hp]
      rfl]
    exact any_false _
  rw [h2, Bool.or_false]
  rfl

/-- An absent key looks up to nothing. -/
theorem lookup_none_of_not_mem (s : Nat) :
    ∀ l : List (Nat × StateCfg), (∀ v, (s, v) ∉ l) → l.lookup s = none := by
  intro l
  induction l with
  | nil => intro _; rfl
  | cons kv rest ih =>
    intro h
    obtain ⟨k, v⟩ := kv
    rw [List.lookup]
    cases hk : s == k with
    | true =>
      exact absurd (by rw [eq_of_beq hk]; exact List.mem_cons_self _ _) (h v)
    | false =>
      exact ih fun v hv => h v (List.mem_cons_of_mem _ hv)

/-- Under the `boundedB` forest bound, every parent chain (configured or
not) dies within `n` steps. -/
theorem bounded_all (m : Machine) (n : Nat) (hb : boundedB m n = true)
    (hn : 1 ≤ n) : ∀ s, iterParent m n s = none := by
  intro s
  by_cases hmem : ∃ v, (s, v) ∈ m.states
  · obtain ⟨v, hv⟩ := hmem
    have := List.all_eq_true.mp hb (s, v) hv
    exact eq_of_beq this
  · have hlk : m.states.lookup s = none :=
      lookup_none_of_not_mem s m.states fun v hv => hmem ⟨v, hv⟩
    have hp : parentOf m s = none := by
      unfold parentOf getCfg
      rw [hlk]
    obtain ⟨k, rfl⟩ : ∃ k, n = k + 1 := ⟨n - 1, by omega⟩
    exact iterParent_none_shift m k s hp

/-- Under a dead parent chain, `isDescendantOf` is fuel-independent and
computes exactly "some iterate of the parent relation reaches `b`". -/
theorem isDesc_iterParent (m : Machine) :
    ∀ j a, iterParent m j a = none → ∀ fuel, j ≤ fuel → ∀ b,
      isDescendantOf m fuel a b =
        ((List.range j).any fun k => iterParent m k a == some b) := by
  intro j
  induction j with
  | zero =>
    intro a h
    rw [iterParent] at h
    exact Option.noConfusion h
  | succ k ih =>
    intro a h fuel hf b
    obtain ⟨f, rfl⟩ : ∃ f, fuel = f + 1 := ⟨fuel - 1, by omega⟩
    rw [isDescendantOf]
    cases hp : parentOf m a with
    | none =>
      rw [any_range_none m a b k hp]
      change ((a == b) || false) = (a == b)
      rw [Bool.or_false]
    | some p =>
      have hk : iterParent m k p = none := by
        rw [iterParent_one_shift m k a p hp] at h
        exact h
      rw [any_range_shift m a p b k hp]
      change ((a == b) || isDescendantOf m f p b) =
        ((a == b) || (List.range k).any fun j => iterParent m j p == some b)
      rw [ih p hk f (by omega) b]

/-- The exit trace is an initial segment of the source's ancestor chain:
states are exited from the innermost outward, without skipping. -/
theorem exitM_chain (m : Machine) :
    ∀ fuel src dst reentry,
      ∃ r, ancestorChain m fuel src = (exitM m fuel src dst reentry).1 ++ r := by
  intro fuel
  induction fuel with
  | zero => intro src dst reentry; exact ⟨[], rfl⟩
  | succ n ih =>
    intro src dst reentry
    cases h : (!reentry && isDescendantOf m (n + 1) dst src) with
    | true =>
      rw [exitM_noexit m n src dst reentry h]
      exact ⟨ancestorChain m (n + 1) src, rfl⟩
    | false =>
      cases hp : parentOf m src with
      | none =>
        rw [exitM_root m n src dst reentry h hp]
        refine ⟨[], ?_⟩
        rw [ancestorChain, hp]
        rfl
      | some p =>
        have hchain : ancestorChain m (n + 1) src = src :: ancestorChain m n p := by
          rw [ancestorChain, hp]
        cases hdp : parentOf m dst with
        | some q =>
          cases hd : isDescendantOf m (n + 1) dst p with
          | true =>
            rw [exitM_stop m n src dst reentry p q h hp hdp hd, hchain]
            exact ⟨ancestorChain m n p, rfl⟩
          | false =>
            rw [exitM_climb m n src dst reentry p q h hp hdp hd, hchain]
            obtain ⟨r, hr⟩ := ih p dst false
            exact ⟨r, by rw [hr]; rfl⟩
        | none =>
          rw [exitM_climb_top m n src dst reentry p h hp hdp, hchain]
          obtain ⟨r, hr⟩ := ih p dst false
          exact ⟨r, by rw [hr]; rfl⟩

/-- `getActionFor`, local-hit case: the first guard-satisfied entry is
handed to the signature cast, whatever its signature. -/
theorem gaf_found (m : Machine) (fuel s t : Nat) (sig : List Nat) (a : Action)
    (hfv : firstValidEntry m s t = some a) :
    getActionFor m (fuel + 1) s t sig = if a.sig == sig then some a else none := by
  rw [getActionFor, hfv]

/-- `getActionFor`, fallback case: with no guard-satisfied local entry,
resolution moves to the parent. -/
theorem gaf_parent (m : Machine) (fuel s t p : Nat) (sig : List Nat)
    (hfv : firstValidEntry m s t = none) (hp : parentOf m s = some p) :
    getActionFor m (fuel + 1) s t sig = getActionFor m fuel p t sig := by
  rw [getActionFor, hfv, hp]

/-- `getActionFor`, root-failure case. -/
theorem gaf_root (m : Machine) (fuel s t : Nat) (sig : List Nat)
    (hfv : firstValidEntry m s t = none) (hp : parentOf m s = none) :
    getActionFor m (fuel + 1) s t sig = none := by
  rw [getActionFor, hfv, hp]

/-- No single configuration call touches the current-state field. -/
theorem applyOp_current (m m2 : Machine) (op : ConfigOp)
    (h : applyOp m op = some m2) : m2.current = m.current := by
  cases op with
  | substateOf child p =>
    rw [applyOp] at h
    split at h
    · exact Option.noConfusion h
    · split at h
      · exact Option.noConfusion h
      · cases h; rfl
  | initialTransition s child =>
    rw [applyOp] at h
    split at h
    · exact Option.noConfusion h
    · split at h
      · exact Option.noConfusion h
      · cases h; rfl
  | permit s t d sig g =>
    rw [applyOp] at h
    split at h
    · exact Option.noConfusion h
    · cases h; rfl
  | permitReentry s t sig g => rw [applyOp] at h; cases h; rfl
  | ignoreTrig s t sig g => rw [applyOp] at h; cases h; rfl
  | internalTransition s t sig g => rw [applyOp] at h; cases h; rfl
  | permitDynamic s t sig g f => rw [applyOp] at h; cases h; rfl

/-- No configuration sequence touches the current-state field. -/
theorem applyOps_current :
    ∀ (ops : List ConfigOp) (m m2 : Machine),
      applyOps m ops = some m2 → m2.current = m.current := by
  intro ops
  induction ops with
  | nil =>
    intro m m2 h
    rw [applyOps] at h
    cases h
    rfl
  | cons op rest ih =>
    intro m m2 h
    rw [applyOps] at h
    cases hop : applyOp m op with
    | none => rw [hop] at h; exact Option.noConfusion h
    | some mm =>
      rw [hop] at h
      change applyOps mm rest = some m2 at h
      exact (ih mm m2 h).trans (applyOp_current m mm op hop)

/-- `testInitialSubState`: from A, firing X exits A, enters B then its
default substate C ("<A>B>C"), ending in C. -/
theorem embedScenario2 :
    ∃ m2 m3,
      applyOps (mkMachine 0) scenario2Ops = some m2 ∧
      fireM m2 9 10 [] [] = Except.ok (m3, { exits := [0], enters := [1, 2] }) ∧
      m3.current = 2 :=
  ⟨_, _, rfl, rfl, rfl⟩

/-- `testExitSiblingSubState`: from B, firing X exits B and enters its
sibling C ("<B>C") without exiting or entering the common parent A. -/
theorem embedScenario3 :
    ∃ m2 m3,
      applyOps (mkMachine 1) scenario3Ops = some m2 ∧
      fireM m2 9 10 [] [] = Except.ok (m3, { exits := [1], enters := [2] }) ∧
      m3.current = 2 :=
  ⟨_, _, rfl, rfl, rfl⟩

/-- `testExitSuperSubState`: from D, firing X exits D then C and enters B
("<D<C>B"), ending in B; the common ancestor A is neither exited nor
entered. -/
theorem embedScenario4 :
    ∃ m2 m3,
      applyOps (mkMachine 3) scenario4Ops = some m2 ∧
      fireM m2 9 10 [] [] = Except.ok (m3, { exits := [3, 2], enters := [1] }) ∧
      m3.current = 1 :=
  ⟨_, _, rfl, rfl, rfl⟩

/-- `testReentrySubState`: from A, firing the reentry trigger X exits A,
re-enters A and cascades into its default substate B ("<A>A>B"), ending in
B. -/
theorem embedScenario5 :
    ∃ m2 m3,
      applyOps (mkMachine 0) scenario5Ops = some m2 ∧
      fireM m2 9 10 [] [] = Except.ok (m3, { exits := [0], enters := [0, 1] }) ∧
      m3.current = 1 :=
  ⟨_, _, rfl, rfl, rfl⟩

/-- Claim C1: for every fired transition with source `s` and destination
`d`, the exit traversal behaves exactly as specified — (1) not a reentry
and `d` a descendant of (or equal to) `s`: no exit event, `s` returned as
`topExited`; otherwise `s` is exited, and then (2) with no parent `s` is
returned, (3) with a parent of which `d` is a descendant that parent is
returned without being exited, and (4) otherwise the traversal recurses to
the parent with `reentry = false`; (5) the exited states form an initial
segment of `s`'s ancestor chain, innermost first. -/
theorem claimC1_exit_traversal (m : Machine) (n s d p : Nat) (reentry : Bool) :
    (isDescendantOf m (n + 1) d s = true →
        exitM m (n + 1) s d false = ([], s)) ∧
    ((reentry = true ∨ isDescendantOf m (n + 1) d s = false) →
      parentOf m s = none →
        exitM m (n + 1) s d reentry = ([s], s)) ∧
    ((reentry = true ∨ isDescendantOf m (n + 1) d s = false) →
      parentOf m s = some p → isDescendantOf m (n + 1) d p = true → 1 ≤ n →
        exitM m (n + 1) s d reentry = ([s], p)) ∧
    ((reentry = true ∨ isDescendantOf m (n + 1) d s = false) →
      parentOf m s = some p → isDescendantOf m (n + 1) d p = false →
        exitM m (n + 1) s d reentry =
          (s :: (exitM m n p d false).1, (exitM m n p d false).2)) ∧
    (∃ r, ancestorChain m (n + 1) s = (exitM m (n + 1) s d reentry).1 ++ r) := by
  have hcond : (reentry = true ∨ isDescendantOf m (n + 1) d s = false) →
      (!reentry && isDescendantOf m (n + 1) d s) = false := by
    intro hor
    cases hor with
    | inl hr => rw [hr]; rfl
    | inr hd => rw [hd, Bool.and_false]
  refine ⟨?_, ?_, ?_, ?_, exitM_chain m (n + 1) s d reentry⟩
  · intro h
    exact exitM_noexit m n s d false (by rw [h]; rfl)
  · intro hor hp
    exact exitM_root m n s d reentry (hcond hor) hp
  · intro hor hp hd hn
    cases hdp : parentOf m d with
    | some q => exact exitM_stop m n s d reentry p q (hcond hor) hp hdp hd
    | none =>
      have hd2 : d = p := by
        rw [isDescendantOf, hdp] at hd
        change ((d == p) || false) = true at hd
        rw [Bool.or_false] at hd
        exact eq_of_beq hd
      subst hd2
      obtain ⟨k, rfl⟩ : ∃ k, n = k + 1 := ⟨n - 1, by omega⟩
      rw [exitM_climb_top m (k + 1) s d reentry d (hcond hor) hp hdp]
      have hin : exitM m (k + 1) d d false = ([], d) := by
        refine exitM_noexit m k d d false ?_
        rw [isDescendantOf]
        rw [beq_self_eq_true]
        rw [Bool.true_or]
        rfl
      rw [hin]
  · intro hor hp hd
    cases hdp : parentOf m d with
    | some q => exact exitM_climb m n s d reentry p q (hcond hor) hp hdp hd
    | none => exact exitM_climb_top m n s d reentry p (hcond hor) hp hdp

theorem claimC1_exit_traversal_witness :
    (exitM mForest 5 1 2 false = ([], 1)) ∧
    (exitM mForest 5 0 9 false = ([0], 0)) ∧
    (exitM mForest 5 2 1 false = ([2], 1)) ∧
    (exitM mForest 5 2 3 false =
      (2 :: (exitM mForest 4 1 3 false).1, (exitM mForest 4 1 3 false).2)) ∧
    (∃ r, ancestorChain mForest 5 2 = (exitM mForest 5 2 3 false).1 ++ r) :=
  ⟨(claimC1_exit_traversal mForest 4 1 2 0 false).1 (by decide),
   (claimC1_exit_traversal mForest 4 0 9 0 false).2.1 (Or.inr (by decide)) (by decide),
   (claimC1_exit_traversal mForest 4 2 1 1 false).2.2.1 (Or.inr (by decide))
     (by decide) (by decide) (by decide),
   (claimC1_exit_traversal mForest 4 2 3 1 false).2.2.2.1 (Or.inr (by decide))
     (by decide) (by decide),
   (claimC1_exit_traversal mForest 4 2 3 0 false).2.2.2.2⟩

theorem optBeq_true_of_eq (o : Option Nat) (y : Nat) (h : o = some y) :
    (o == some y) = true := by
  rw [h, beq_some_some]
  exact beq_self_eq_true y

theorem optBeq_false_of_ne (o : Option Nat) (y : Nat) (h : ¬o = some y) :
    (o == some y) = false := by
  cases o with
  | none => rfl
  | some x =>
    rw [beq_some_some]
    cases hb : (x == y) with
    | true => exact absurd (by rw [eq_of_beq hb]) h
    | false => rfl

/-- Claim C2: for every fired transition, the entry traversal enters
ancestors outermost-first and then cascades into default substates — (1)
`initial = true` suppresses the ancestor phase; (2)–(3) a parentless
destination, or a source already inside the destination's parent, also
skips it; (4)–(5) otherwise the parent chain is entered recursively first,
its trace prefixing the destination's; (6) without an `initialChild` the
destination's entry ends the call; (7) with a correctly parented
`initialChild` the current state is set to the child and it is entered
recursively with `initial = true`, cascading arbitrarily deep; (8) a child
whose parent is not the entered state kills the transition at transition
time, while (9) `initialTransition` itself accepts such a child at
configuration time. -/
theorem claimC2_enter_traversal (m : Machine) (n src dst p c : Nat)
    (pre tr : List Nat) (la0 la1 : Option Nat) :
    (enterM m (n + 1) src dst true = enterFrom m n dst [] none) ∧
    (parentOf m dst = none →
        enterM m (n + 1) src dst false = enterFrom m n dst [] none) ∧
    (parentOf m dst = some p → isDescendantOf m (n + 1) src p = true →
        enterM m (n + 1) src dst false = enterFrom m n dst [] none) ∧
    (parentOf m dst = some p → isDescendantOf m (n + 1) src p = false →
      enterM m n src p false = some (pre, la0) →
        enterM m (n + 1) src dst false = enterFrom m n dst pre la0) ∧
    (parentOf m dst = some p → isDescendantOf m (n + 1) src p = false →
      enterM m n src p false = none →
        enterM m (n + 1) src dst false = none) ∧
    (initialChildOf m dst = none →
        enterFrom m n dst pre la0 = some (pre ++ [dst], la0)) ∧
    (initialChildOf m dst = some c → parentOf m c = some dst →
      enterM m n dst c true = some (tr, la1) →
        enterFrom m n dst pre la0 = some (pre ++ dst :: tr, some (la1.getD c))) ∧
    (initialChildOf m dst = some c → ¬parentOf m c = some dst →
        enterFrom m n dst pre la0 = none) ∧
    (¬dst = c → initialChildOf m dst = none →
        applyOp m (ConfigOp.initialTransition dst c) =
          some (setCfg m dst { getCfg m dst with initialChild := some c })) := by
  refine ⟨enterM_initial m n src dst, ?_, ?_, ?_, ?_, ?_, ?_, ?_, ?_⟩
  · intro hdp
    exact enterM_top m n src dst hdp
  · intro hdp hd
    exact enterM_inside m n src dst p hdp hd
  · intro hdp hd hpre
    exact enterM_pre m n src dst p pre la0 hdp hd hpre
  · intro hdp hd hpre
    exact enterM_pre_fail m n src dst p hdp hd hpre
  · intro hc
    exact enterFrom_leaf m n dst pre la0 hc
  · intro hc hpc hrec
    exact enterFrom_cascade m n dst c pre tr la0 la1 hc (optBeq_true_of_eq _ _ hpc) hrec
  · intro hc hnpc
    exact enterFrom_badChild m n dst c pre la0 hc (optBeq_false_of_ne _ _ hnpc)
  · intro hne hinit
    rw [applyOp]
    have hb : (dst == c) = false := by
      cases hb2 : (dst == c) with
      | true => exact absurd (eq_of_beq hb2) hne
      | false => rfl
    have hi : (getCfg m dst).initialChild.isSome = false := by
      have h0 : (getCfg m dst).initialChild = none := hinit
      rw [h0]
      rfl
    rw [hb, hi]
    rfl

theorem claimC2_enter_traversal_witness :
    (enterM mEnter 4 9 1 true = enterFrom mEnter 3 1 [] none) ∧
    (enterM mEnter 4 9 0 false = enterFrom mEnter 3 0 [] none) ∧
    (enterM mEnter 4 2 1 false = enterFrom mEnter 3 1 [] none) ∧
    (enterM mEnter 4 3 1 false = enterFrom mEnter 3 1 [0, 1] (some 1)) ∧
    (enterM mEnter 4 9 7 false = none) ∧
    (enterFrom mEnter 3 1 [] none = some ([1], none)) ∧
    (enterFrom mEnter 3 0 [] none = some ([0, 1], some 1)) ∧
    (enterFrom mEnter 3 3 [] none = none) ∧
    (applyOp mEnter (ConfigOp.initialTransition 5 6) =
      some (setCfg mEnter 5 { getCfg mEnter 5 with initialChild := some 6 })) :=
  ⟨(claimC2_enter_traversal mEnter 3 9 1 0 0 [] [] none none).1,
   (claimC2_enter_traversal mEnter 3 9 0 0 0 [] [] none none).2.1 (by decide),
   (claimC2_enter_traversal mEnter 3 2 1 0 0 [] [] none none).2.2.1
     (by decide) (by decide),
   (claimC2_enter_traversal mEnter 3 3 1 0 0 [0, 1] [] (some 1) none).2.2.2.1
     (by decide) (by decide) (by rfl),
   (claimC2_enter_traversal mEnter 3 9 7 3 0 [] [] none none).2.2.2.2.1
     (by decide) (by decide) (by rfl),
   (claimC2_enter_traversal mEnter 3 9 1 0 0 [] [] none none).2.2.2.2.2.1
     (by decide),
   (claimC2_enter_traversal mEnter 3 9 0 0 1 [] [1] none none).2.2.2.2.2.2.1
     (by decide) (by decide) (by rfl),
   (claimC2_enter_traversal mEnter 3 9 3 0 4 [] [] none none).2.2.2.2.2.2.2.1
     (by decide) (by decide),
   (claimC2_enter_traversal mEnter 3 9 5 0 6 [] [] none none).2.2.2.2.2.2.2.2
     (by decide) (by rfl)⟩

/-- Claim C3, counterexample: at state 0 the trigger-5 table holds an
unconditional entry of signature `[1]` followed by an unconditional entry
of exact signature `[2]`, and the parent state 1 also holds an exact
`[2]` entry — yet a fire with signature `[2]` resolves to nothing and is
reported unhandled: the first guard-satisfied entry is always selected and
its failing signature cast aborts resolution instead of letting later
entries or the ancestor chain be considered. -/
theorem claimC3_counterexample :
    ((entriesFor mSig 0 5).map fun a => a.sig) = [[1], [2]] ∧
    ((entriesFor mSig 0 5).map fun a => a.guard) = [none, none] ∧
    ((entriesFor mSig 1 5).map fun a => a.sig) = [[2]] ∧
    getActionFor mSig 9 0 5 [2] = none ∧
    fireM mSig 9 5 [2] [3] = Except.error FireErr.unhandledTrigger :=
  ⟨rfl, rfl, rfl, rfl, rfl⟩

/-- Claim C3 (amended): with typed payloads, resolution selects the first
guard-satisfied entry regardless of its payload-type signature; if that
entry's registered signature is not exactly the fire's signature the whole
resolution yields no action (without trying later entries or ancestors);
the parent is consulted only when no guard-satisfied entry exists locally;
consequently a resolved action always carries exactly the fire's
signature, so an action registered without payload types is matched only
by a payload-less fire. -/
theorem claimC3_amended (m : Machine) (fuel s t p : Nat) (sig : List Nat)
    (a b : Action) :
    (firstValidEntry m s t = some a →
        getActionFor m (fuel + 1) s t sig =
          if a.sig == sig then some a else none) ∧
    (firstValidEntry m s t = none → parentOf m s = some p →
        getActionFor m (fuel + 1) s t sig = getActionFor m fuel p t sig) ∧
    (firstValidEntry m s t = none → parentOf m s = none →
        getActionFor m (fuel + 1) s t sig = none) ∧
    (getActionFor m fuel s t sig = some b → b.sig = sig) :=
  ⟨fun hfv => gaf_found m fuel s t sig a hfv,
   fun hfv hp => gaf_parent m fuel s t p sig hfv hp,
   fun hfv hp => gaf_root m fuel s t sig hfv hp,
   fun hb => getActionFor_sig m fuel s t sig b hb⟩

theorem claimC3_amended_witness :
    getActionFor mSig 5 0 5 [2] = none ∧
    getActionFor mSig 5 0 6 [2] = getActionFor mSig 4 1 6 [2] ∧
    getActionFor mSig 5 1 6 [2] = none ∧
    Action.sig { guard := none, sig := [2], kind := ActKind.toState 8 } = [2] :=
  ⟨(claimC3_amended mSig 4 0 5 1 [2] { guard := none, sig := [1], kind := ActKind.toState 7 }
      { guard := none, sig := [2], kind := ActKind.toState 8 }).1 rfl,
   (claimC3_amended mSig 4 0 6 1 [2] { guard := none, sig := [1], kind := ActKind.toState 7 }
      { guard := none, sig := [2], kind := ActKind.toState 8 }).2.1 rfl rfl,
   (claimC3_amended mSig 4 1 6 1 [2] { guard := none, sig := [1], kind := ActKind.toState 7 }
      { guard := none, sig := [2], kind := ActKind.toState 8 }).2.2.1 rfl rfl,
   (claimC3_amended mSig 4 1 5 1 [2] { guard := none, sig := [1], kind := ActKind.toState 7 }
      { guard := none, sig := [2], kind := ActKind.toState 8 }).2.2.2 rfl⟩

/-- Claim C4, code evaluation at the failing input: the sequence
`configure(1).substateOf(2); configure(2).substateOf(1)` passes both
`substateOf` asserts (the cycle check runs while the child's parent is
still unset, so it only catches `child == parent`), and the resulting
parent relation is the two-cycle `1 ↔ 2`: no forest depth bound exists
for the configured states, contradicting the claimed
configuration-time forest invariant. -/
theorem claimC4_cycle_bug :
    applyOps (mkMachine 0) cycleOps = some mCycle ∧
    parentOf mCycle 1 = some 2 ∧
    parentOf mCycle 2 = some 1 ∧
    ∀ n, boundedB mCycle n = false := by
  refine ⟨rfl, rfl, rfl, ?_⟩
  have key : ∀ n, (∃ x, iterParent mCycle n 1 = some x) ∧
      (∃ x, iterParent mCycle n 2 = some x) := by
    intro n
    induction n with
    | zero => exact ⟨⟨1, rfl⟩, ⟨2, rfl⟩⟩
    | succ k ih =>
      refine ⟨?_, ?_⟩
      · rw [iterParent_one_shift mCycle k 1 2 rfl]
        exact ih.2
      · rw [iterParent_one_shift mCycle k 2 1 rfl]
        exact ih.1
  intro n
  obtain ⟨⟨x, hx⟩, _⟩ := key n
  show (mCycle.states.all fun pr => iterParent mCycle n pr.1 == none) = false
  change ((iterParent mCycle n 1 == none) &&
    ((iterParent mCycle n 2 == none) && true)) = false
  rw [hx]
  rfl

/-- Claim C5: trigger resolution scans a state's entries for the trigger
in insertion order, selects the first whose guard is absent or true, and
on local failure repeats at the parent up the ancestor chain — i.e. the
code's resolution equals the chain-walk restatement `resolveSpec`. -/
theorem claimC5_resolution (m : Machine) (fuel s t : Nat) (sig : List Nat) :
    getActionFor m fuel s t sig = resolveSpec m fuel s t sig :=
  getActionFor_eq_resolveSpec m fuel s t sig

/-- Claim C6: when resolution fails at the current state and all its
ancestors, `fire` invokes the registered unhandled-trigger observer with
`(state, trigger)` and returns normally, or dies fatally without one; in
both cases the machine is unchanged and no exit or entry event occurs. -/
theorem claimC6_unhandled (m : Machine) (fuel t : Nat) (sig args : List Nat)
    (h : getActionFor m fuel m.current t sig = none) :
    (m.hasUnhandledObserver = true →
        fireM m fuel t sig args =
          Except.ok (m, { unhandledCall := some (m.current, t) })) ∧
    (m.hasUnhandledObserver = false →
        fireM m fuel t sig args = Except.error FireErr.unhandledTrigger) := by
  constructor
  · intro hobs
    unfold fireM
    rw [h, hobs]
    rfl
  · intro hobs
    unfold fireM
    rw [h, hobs]
    rfl

theorem claimC6_unhandled_witness :
    fireM (onUnhandledTriggerM mUnh) 5 3 [] [] =
      Except.ok (onUnhandledTriggerM mUnh, { unhandledCall := some (0, 3) }) ∧
    fireM mUnh 5 3 [] [] = Except.error FireErr.unhandledTrigger :=
  ⟨(claimC6_unhandled (onUnhandledTriggerM mUnh) 5 3 [] [] rfl).1 rfl,
   (claimC6_unhandled mUnh 5 3 [] [] rfl).2 rfl⟩

/-- Claim C7 (with `getDestinationFor` modelled from the spec, since it is
not defined anywhere in the repository): `canFire` returns a bool that is
true exactly when the insertion-order guard scan with ancestor fallback
finds an applicable action for a payload-less fire; being a pure lookup it
leaves the machine, in particular its current state, untouched. -/
theorem claimC7_canFire (m : Machine) (fuel t : Nat) :
    canFire m fuel t = (resolveSpec m fuel m.current t []).isSome := by
  unfold canFire getDestinationFor
  rw [getActionFor_eq_resolveSpec]

/-- Claim C8: a fire that resolves to an ignore action (`ignore`, or
`ignoreIf` whose guard returned true) returns successfully with the
machine unchanged and an empty event trace: no exit, no entry, no
callbacks. -/
theorem claimC8_ignore (m : Machine) (fuel t : Nat) (sig args : List Nat)
    (a : Action)
    (h : getActionFor m fuel m.current t sig = some a)
    (hk : a.kind = ActKind.ignore) :
    fireM m fuel t sig args = Except.ok (m, {}) := by
  unfold fireM
  rw [h]
  change (match a.kind with
    | ActKind.ignore => Except.ok (m, {})
    | ActKind.internal => Except.ok (m, { internalCall := true })
    | ActKind.toState d => fireGo m fuel t d
    | ActKind.dynamic f => fireGo m fuel t (f args)) = Except.ok (m, {})
  rw [hk]

theorem claimC8_ignore_witness :
    fireM mIgnore 9 5 [] [] = Except.ok (mIgnore, {}) :=
  claimC8_ignore mIgnore 9 5 [] []
    { guard := some true, sig := [], kind := ActKind.ignore } rfl rfl

/-- Claim C9: under the forest bound (`boundedB`), `isDescendantOf`
terminates — its value is the same at every sufficient fuel — and is true
exactly when `a = b` or `a`'s parent chain reaches `b` (`reachesB`). -/
theorem claimC9_isDescendantOf (m : Machine) (n fuel fuel2 a b : Nat)
    (hb : boundedB m n = true) (hn : 1 ≤ n) (hf : n ≤ fuel)
    (hf2 : n ≤ fuel2) :
    isDescendantOf m fuel a b = reachesB m n a b ∧
    isDescendantOf m fuel a b = isDescendantOf m fuel2 a b := by
  have hnone := bounded_all m n hb hn a
  have key : ∀ f, n ≤ f →
      isDescendantOf m f a b =
        ((List.range n).any fun k => iterParent m k a == some b) :=
    fun f hfle => isDesc_iterParent m n a hnone f hfle b
  have hr : reachesB m n a b =
      ((List.range n).any fun k => iterParent m k a == some b) := by
    unfold reachesB
    rw [List.range_succ, List.any_append]
    have h2 : ([n].any fun k => iterParent m k a == some b) = false := by
      rw [List.any_cons, List.any_nil, hnone]
      rfl
    rw [h2, Bool.or_false]
  exact ⟨by rw [key fuel hf, hr], by rw [key fuel hf, key fuel2 hf2]⟩

theorem claimC9_isDescendantOf_witness :
    isDescendantOf mForest 5 2 0 = reachesB mForest 3 2 0 ∧
    isDescendantOf mForest 5 2 0 = isDescendantOf mForest 7 2 0 :=
  claimC9_isDescendantOf mForest 3 5 7 2 0 (by decide) (by decide)
    (by decide) (by decide)

/-- Claim C10: constructing `Machine(s)` makes the current state exactly
`s`; the constructor and the whole configuration phase invoke no entry
hook and perform no initial-transition cascade (configuration calls never
touch the current-state field, even when they configure an `initialChild`
for `s`), so a cascade can first happen only inside a later `fire`. -/
theorem claimC10_ctor (s : Nat) (ops : List ConfigOp) (m2 : Machine) :
    (mkMachine s).current = s ∧
    (applyOps (mkMachine s) ops = some m2 → m2.current = s) :=
  ⟨rfl, fun h => applyOps_current ops (mkMachine s) m2 h⟩

theorem claimC10_ctor_witness :
    (mkMachine 0).current = 0 ∧
    ((applyOps (mkMachine 0) scenario5Ops).getD (mkMachine 0)).current = 0 :=
  ⟨(claimC10_ctor 0 scenario5Ops (mkMachine 0)).1,
   (claimC10_ctor 0 scenario5Ops
      ((applyOps (mkMachine 0) scenario5Ops).getD (mkMachine 0))).2 rfl⟩

end StateMachineCpp
